import Mathlib

/-
Verification of the booking/class-lifecycle core of the OmnifyBookingsAPI
repository.  The services in `services/class_service.py` and
`services/booking_service.py` are embedded shallowly: the database is a
`Store` value, every service method is a function from a store (and the
current time `now`, standing for `datetime.utcnow()`) to a new store
together with an `Except HTTPError` result.  A `commit` in the Python code
corresponds to the state that is threaded onward; an error raised between
commits keeps the state produced by the commits that already happened,
mirroring SQLAlchemy sessions where `rollback()` cannot undo a commit.
Timestamps are integer UTC instants (seconds); timezone conversion is an
abstract pure function parameter, as the spec scopes it out.
-/

/-- Error record mirroring a fastapi HTTPException: status code and detail. -/
structure HTTPError where
  status_code : Nat
  detail : String
deriving DecidableEq, Repr

/-- Row of the classes table (`modelsDB/models.py`, class FitnessClass). -/
structure FitnessClass where
  id : Int
  name : String
  class_type : String
  instructor : String
  start_time : Int
  end_time : Int
  capacity : Int
  available_slots : Int
  status : String
  timezone : String
deriving DecidableEq, Repr

/-- Row of the bookings table (`modelsDB/models.py`, class Booking). -/
structure Booking where
  id : Int
  class_id : Int
  client_name : String
  client_email : String
  booking_time : Int
  status : String
deriving DecidableEq, Repr

/-- The committed database state: both tables plus autoincrement counters. -/
structure Store where
  classes : List FitnessClass
  bookings : List Booking
  next_class_id : Int
  next_booking_id : Int
deriving DecidableEq, Repr

/-- Input payload for class creation (`schemas/class_schema.py`, FitnessClassBase). -/
structure ClassData where
  name : String
  class_type : String
  instructor : String
  start_time : Int
  end_time : Int
  capacity : Int
  timezone : String
  status : String
deriving DecidableEq, Repr

/-- Input payload for booking creation (`schemas/booking_schema.py`, BookingBase). -/
structure BookingData where
  class_id : Int
  client_name : String
  client_email : String
deriving DecidableEq, Repr

/-- Input payload for booking update (`schemas/booking_schema.py`, BookingUpdate);
`none` models an unset field. -/
structure BookingUpdate where
  status : Option String
deriving DecidableEq, Repr

deriving instance DecidableEq for Except

/-- Python str.lower(), as used for client_email normalization (structural
over the character list so that concrete instances evaluate). -/
def lower (s : String) : String := ⟨s.data.map Char.toLower⟩

/-- Values of the ClassType enum. -/
def class_types : List String := ["yoga", "zumba", "hiit"]

/-- Values of the ClassStatus enum. -/
def class_statuses : List String := ["upcoming", "active", "completed"]

/-- SQLAlchemy `query(FitnessClass).filter(id == cid).first()`. -/
def findClass (s : Store) (cid : Int) : Option FitnessClass :=
  s.classes.find? (fun x => x.id == cid)

/-- Writing back a mutated ORM object: the row with the object's primary key
is replaced. -/
def replaceClass (c : FitnessClass) (x : FitnessClass) : FitnessClass :=
  if x.id == c.id then c else x

/-- Persist an updated class row. -/
def putClass (s : Store) (c : FitnessClass) : Store :=
  { s with classes := s.classes.map (replaceClass c) }

/-- SQLAlchemy `query(Booking).filter(id == bid).first()`. -/
def findBooking (s : Store) (bid : Int) : Option Booking :=
  s.bookings.find? (fun x => x.id == bid)

/-- Writing back a mutated booking ORM object. -/
def replaceBooking (b : Booking) (x : Booking) : Booking :=
  if x.id == b.id then b else x

/-- Persist an updated booking row. -/
def putBooking (s : Store) (b : Booking) : Store :=
  { s with bookings := s.bookings.map (replaceBooking b) }

/-- Available-slot count of the class with the given id, if present. -/
def slotsAt (s : Store) (cid : Int) : Option Int :=
  (findClass s cid).map (fun c => c.available_slots)

/-- ClassService._get_class_status: effective status from the clock. -/
def get_class_status (now : Int) (c : FitnessClass) : String :=
  if now ≥ c.end_time then "completed"
  else if now ≥ c.start_time then "active"
  else "upcoming"

/-- Effect of ClassService.update_classes_status on a single row: the two
sequential bulk UPDATE statements (upcoming/within-window to active, then
active/past-end to completed). -/
def sweepClass (now : Int) (c : FitnessClass) : FitnessClass :=
  let c1 :=
    if c.status = "upcoming" ∧ c.start_time ≤ now ∧ now < c.end_time then
      { c with status := "active" }
    else c
  if c1.status = "active" ∧ c1.end_time ≤ now then
    { c1 with status := "completed" }
  else c1

/-- ClassService.update_classes_status: the global status sweep, committed. -/
def update_classes_status (now : Int) (s : Store) : Store :=
  { s with classes := s.classes.map (sweepClass now) }

/-- ClassService.get_class: fetch one class, lazily fixing a stale status
(committed when it changes). -/
def get_class (now : Int) (s : Store) (cid : Int) :
    Store × Except HTTPError FitnessClass :=
  match findClass s cid with
  | none => (s, .error ⟨404, "Class not found"⟩)
  | some c =>
    let ns := get_class_status now c
    if ns ≠ c.status then
      let c2 := { c with status := ns }
      (putClass s c2, .ok c2)
    else
      (s, .ok c)

/-- ClassService.update_available_slots: fetch via get_class, add `change`,
reject a negative result, otherwise commit the new count. -/
def update_available_slots (now : Int) (s : Store) (cid : Int) (change : Int) :
    Store × Except HTTPError FitnessClass :=
  match get_class now s cid with
  | (s1, .error e) => (s1, .error e)
  | (s1, .ok c) =>
    let newSlots := c.available_slots + change
    if newSlots < 0 then
      (s1, .error ⟨400, "Not enough available slots"⟩)
    else
      let c2 := { c with available_slots := newSlots }
      (putClass s1 c2, .ok c2)

/-- ClassService.create_class.  `validTZ` models pytz timezone validation and
`conv` models `convert_to_timezone`, both external collaborators per the
spec.  Validation order, the half-open overlap query, and the 30-minute
duration check follow the source. -/
def create_class (validTZ : String → Bool) (conv : Int → String → Int)
    (s : Store) (d : ClassData) : Store × Except HTTPError FitnessClass :=
  if ¬ (validTZ d.timezone = true) then
    (s, .error ⟨400, "Invalid timezone: " ++ d.timezone⟩)
  else if ¬ (d.class_type ∈ class_types) then
    (s, .error ⟨400, "Invalid class type. Must be one of: " ++ toString class_types⟩)
  else if ¬ (d.status ∈ class_statuses) then
    (s, .error ⟨400, "Invalid status. Must be one of: " ++ toString class_statuses⟩)
  else if (s.classes.find? (fun c =>
      c.name == d.name && decide (c.start_time < conv d.end_time d.timezone)
        && decide (conv d.start_time d.timezone < c.end_time))).isSome then
    (s, .error ⟨409, "A class with the same name and overlapping time already exists."⟩)
  else if conv d.end_time d.timezone - conv d.start_time d.timezone < 1800 then
    (s, .error ⟨400, "Class duration must be at least 30 minutes"⟩)
  else
    let c : FitnessClass :=
      ⟨s.next_class_id, d.name, d.class_type, d.instructor,
       conv d.start_time d.timezone, conv d.end_time d.timezone,
       d.capacity, d.capacity, d.status, d.timezone⟩
    ({ s with classes := s.classes ++ [c], next_class_id := s.next_class_id + 1 }, .ok c)

/-- Ordering used by `order_by(FitnessClass.start_time.asc())`. -/
def startLE (a b : FitnessClass) : Prop := a.start_time ≤ b.start_time

instance : DecidableRel startLE :=
  fun a b => inferInstanceAs (Decidable (a.start_time ≤ b.start_time))

instance : IsTotal FitnessClass startLE :=
  ⟨fun a b => Int.le_total a.start_time b.start_time⟩

instance : IsTrans FitnessClass startLE :=
  ⟨fun _ _ _ h1 h2 => le_trans h1 h2⟩

/-- Conversion of a returned class's times into its own stored timezone. -/
def display_class (conv : Int → String → Int) (c : FitnessClass) : FitnessClass :=
  { c with start_time := conv c.start_time c.timezone,
           end_time := conv c.end_time c.timezone }

/-- The rows matched by the query in ClassService.get_upcoming_classes:
stored status upcoming, start strictly in the future, optional type filter
(the empty string is falsy in Python and means no filter). -/
def upcoming_query (now : Int) (s : Store) (ct : Option String) : List FitnessClass :=
  let base := s.classes.filter
    (fun c => c.status == "upcoming" && decide (now < c.start_time))
  let t := ct.getD ""
  if t = "" then base else base.filter (fun c => c.class_type == t)

/-- ClassService.get_upcoming_classes: validates the filter, runs the query
ordered by start_time ascending, converts each result's times to its own
timezone.  It performs no status sweep and no commit. -/
def get_upcoming_classes (conv : Int → String → Int) (now : Int) (s : Store)
    (ct : Option String) : Store × Except HTTPError (List FitnessClass) :=
  let t := ct.getD ""
  if t ≠ "" ∧ ¬ (t ∈ class_types) then
    (s, .error ⟨400, "Invalid class type. Must be one of: " ++ toString class_types⟩)
  else
    (s, .ok ((List.insertionSort startLE (upcoming_query now s ct)).map
      (display_class conv)))

/-- Modelled from the spec: `listUpcoming(classType?, now)` as §4.1 words it,
"runs reconcileStatuses, then returns all classes with status == upcoming
and start_time > now, ...".  Used only to compare against the source's
`get_upcoming_classes`, which omits the reconcile step. -/
def listUpcoming_spec (conv : Int → String → Int) (now : Int) (s : Store)
    (ct : Option String) : Store × Except HTTPError (List FitnessClass) :=
  let s1 := update_classes_status now s
  get_upcoming_classes conv now s1 ct

/-- ClassService.delete_class: fetch (with lazy status fix) then delete. -/
def delete_class (now : Int) (s : Store) (cid : Int) :
    Store × Except HTTPError Bool :=
  match get_class now s cid with
  | (s1, .error e) => (s1, .error e)
  | (s1, .ok _) =>
    ({ s1 with classes := s1.classes.filter (fun x => ¬ (x.id == cid)) }, .ok true)

/-- BookingService.get_booking: rejects non-positive ids (`not booking_id or
booking_id <= 0`) before any lookup, then 404 when absent.  Pure read. -/
def get_booking (s : Store) (bid : Int) : Except HTTPError Booking :=
  if bid ≤ 0 then .error ⟨400, "Invalid booking ID"⟩
  else
    match findBooking s bid with
    | none => .error ⟨404, "Booking not found"⟩
    | some b => .ok b

/-- BookingService.create_booking.  `persistOk = false` models a database
error at the final `db.add(new_booking); db.commit()`: the session rollback
discards the pending insert but cannot undo the slot decrement that
`update_available_slots` already committed. -/
def create_booking (persistOk : Bool) (now : Int) (s : Store) (d : BookingData) :
    Store × Except HTTPError Booking :=
  match get_class now (update_classes_status now s) d.class_id with
  | (s2, .error _) =>
    (s2, .error ⟨404, "Class with ID " ++ toString d.class_id ++ " not found"⟩)
  | (s2, .ok c) =>
    if c.status ≠ "upcoming" then
      (s2, .error ⟨400, "Cannot book a class with status: " ++ c.status⟩)
    else if c.available_slots ≤ 0 then
      (s2, .error ⟨400, "No available slots in this class"⟩)
    else if (s2.bookings.find? (fun b =>
        b.class_id == d.class_id && b.client_email == lower d.client_email)).isSome then
      (s2, .error ⟨409, "You have already booked this class."⟩)
    else
      match update_available_slots now s2 d.class_id (-1) with
      | (s3, .error e) => (s3, .error e)
      | (s3, .ok _) =>
        if persistOk then
          let b : Booking :=
            ⟨s3.next_booking_id, d.class_id, d.client_name,
             lower d.client_email, now, "confirmed"⟩
          ({ s3 with bookings := s3.bookings ++ [b],
                     next_booking_id := s3.next_booking_id + 1 }, .ok b)
        else
          (s3, .error ⟨500, "Failed to create booking"⟩)

/-- Repeated booking creation for a list of client emails against one class;
stops at the first failure. -/
def create_many (now : Int) (cid : Int) (nm : String) :
    List String → Store → Store × Bool
  | [], s => (s, true)
  | e :: es, s =>
    match create_booking true now s ⟨cid, nm, e⟩ with
    | (s', .ok _) => create_many now cid nm es s'
    | (s', .error _) => (s', false)

/-- BookingService.update_booking_status.  `allowed` is the configured
BOOKING_ALLOWED_STATUSES list.  The slot side effect (release on
confirmed-to-cancelled, capacity check plus reserve on
cancelled-to-confirmed) precedes the field update, as in the source. -/
def update_booking_status (allowed : List String) (now : Int) (s : Store)
    (bid : Int) (u : BookingUpdate) : Store × Except HTTPError Booking :=
  match get_booking s bid with
  | .error e => (s, .error e)
  | .ok b =>
    match u.status with
    | none => (s, .ok b)
    | some st =>
      if st ≠ "" ∧ st ≠ b.status then
        if ¬ (st ∈ allowed) then
          (s, .error ⟨400, "Invalid status. Must be one of: " ++ toString allowed⟩)
        else if st = "cancelled" ∧ b.status = "confirmed" then
          match update_available_slots now s b.class_id 1 with
          | (s1, .error e) => (s1, .error e)
          | (s1, .ok _) =>
            let b2 := { b with status := st }
            (putBooking s1 b2, .ok b2)
        else if st = "confirmed" ∧ b.status = "cancelled" then
          match get_class now s b.class_id with
          | (s1, .error e) => (s1, .error e)
          | (s1, .ok c) =>
            if c.available_slots ≤ 0 then
              (s1, .error ⟨400, "Cannot re-confirm booking: no available slots"⟩)
            else
              match update_available_slots now s1 b.class_id (-1) with
              | (s2, .error e) => (s2, .error e)
              | (s2, .ok _) =>
                let b2 := { b with status := st }
                (putBooking s2 b2, .ok b2)
        else
          let b2 := { b with status := st }
          (putBooking s b2, .ok b2)
      else
        let b2 := { b with status := st }
        (putBooking s b2, .ok b2)

/-- BookingService.delete_booking: release a slot when the booking was
confirmed, then delete the row. -/
def delete_booking (now : Int) (s : Store) (bid : Int) :
    Store × Except HTTPError Bool :=
  match get_booking s bid with
  | .error e => (s, .error e)
  | .ok b =>
    if b.status = "confirmed" then
      match update_available_slots now s b.class_id 1 with
      | (s1, .error e) => (s1, .error e)
      | (s1, .ok _) =>
        ({ s1 with bookings := s1.bookings.filter (fun x => ¬ (x.id == bid)) }, .ok true)
    else
      ({ s with bookings := s.bookings.filter (fun x => ¬ (x.id == bid)) }, .ok true)

/-- All classes in the store have a non-negative slot count. -/
def slots_ok (s : Store) : Prop :=
  ∀ c ∈ s.classes, 0 ≤ c.available_slots

/-- Identity timezone conversion, used to instantiate the abstract converter
in concrete scenarios (aware instants are unchanged by conversion). -/
def convId : Int → String → Int := fun t _ => t

/-- Timezone validator accepting everything, for concrete scenarios. -/
def tzOk : String → Bool := fun _ => true

/-- The configured booking statuses in the deployed environment. -/
def booking_allowed : List String := ["confirmed", "cancelled"]

/-- Class whose whole time window [0, 10) is already in the past at now = 20
while its stored status is still upcoming. -/
def exClassStale : FitnessClass :=
  ⟨1, "yoga-a", "yoga", "ina", 0, 10, 5, 5, "upcoming", "UTC"⟩

/-- Store holding only the stale class. -/
def exStoreStale : Store := ⟨[exClassStale], [], 2, 1⟩

/-- Upcoming class with window [100, 2100), capacity 2, both slots free. -/
def exClassOpen : FitnessClass :=
  ⟨1, "yoga-b", "yoga", "inb", 100, 2100, 2, 2, "upcoming", "UTC"⟩

/-- Store holding only the open class. -/
def exStoreOpen : Store := ⟨[exClassOpen], [], 2, 1⟩

/-- Upcoming class of capacity 1 with its single slot still free. -/
def exClassCapOne : FitnessClass :=
  ⟨1, "yoga-c", "yoga", "inc", 100, 2100, 1, 1, "upcoming", "UTC"⟩

/-- Store holding only the capacity-one class. -/
def exStoreCapOne : Store := ⟨[exClassCapOne], [], 2, 1⟩

/-- Upcoming class of capacity 1 whose single slot is taken. -/
def exClassNoSlots : FitnessClass :=
  ⟨1, "yoga-d", "yoga", "ind", 100, 2100, 1, 0, "upcoming", "UTC"⟩

/-- The confirmed booking holding the slot of `exClassNoSlots`. -/
def exBookingA : Booking := ⟨1, 1, "A", "a@x.com", 0, "confirmed"⟩

/-- Store with the full class and its confirmed booking. -/
def exStoreBooked : Store := ⟨[exClassNoSlots], [exBookingA], 2, 2⟩

/-- Upcoming class of capacity 2 with one slot taken by `exBookingB`. -/
def exClassHalf : FitnessClass :=
  ⟨1, "yoga-f", "yoga", "inf", 100, 2100, 2, 1, "upcoming", "UTC"⟩

/-- A confirmed booking against `exClassHalf`. -/
def exBookingB : Booking := ⟨1, 1, "B", "b@x.com", 0, "confirmed"⟩

/-- Store with the half-full class and its confirmed booking. -/
def exStoreHalf : Store := ⟨[exClassHalf], [exBookingB], 2, 2⟩

/-- Existing class named "Yoga AM" over [36000, 39600) (10:00 to 11:00). -/
def exClassYogaAM : FitnessClass :=
  ⟨1, "Yoga AM", "yoga", "ine", 36000, 39600, 5, 5, "upcoming", "UTC"⟩

/-- Store holding the "Yoga AM" class. -/
def exStoreYoga : Store := ⟨[exClassYogaAM], [], 2, 1⟩

/-- Payload for a second "Yoga AM" over [39600, 43200) (11:00 to 12:00):
it touches the existing class only at the shared endpoint. -/
def exYogaTouch : ClassData :=
  ⟨"Yoga AM", "yoga", "ine", 39600, 43200, 5, "UTC", "upcoming"⟩

/-- Mapping an id-respecting function over a list commutes with find?. -/
theorem find?_map_pres {α : Type} (f : α → α) (p : α → Bool)
    (hf : ∀ x, p (f x) = p x) (l : List α) :
    (l.map f).find? p = (l.find? p).map f := by
  induction l with
  | nil => rfl
  | cons x xs ih =>
    by_cases h : p x = true
    · rw [List.map_cons, List.find?_cons_of_pos _ (by rw [hf]; exact h),
        List.find?_cons_of_pos _ h, Option.map_some']
    · rw [List.map_cons, List.find?_cons_of_neg _ (by rw [hf]; exact h),
        List.find?_cons_of_neg _ h, ih]

/-- A found class carries the id it was looked up by. -/
theorem findClass_id (s : Store) (cid : Int) (c : FitnessClass)
    (h : findClass s cid = some c) : c.id = cid := by
  have := List.find?_some h
  exact eq_of_beq this

/-- A found class is a member of the table. -/
theorem findClass_mem (s : Store) (cid : Int) (c : FitnessClass)
    (h : findClass s cid = some c) : c ∈ s.classes :=
  List.mem_of_find?_eq_some h

/-- replaceClass keeps the primary key. -/
theorem replaceClass_id (c x : FitnessClass) : (replaceClass c x).id = x.id := by
  unfold replaceClass
  split
  · next h => exact (eq_of_beq h).symm
  · rfl

/-- putClass rewrites each row through replaceClass, as seen by findClass. -/
theorem findClass_putClass (s : Store) (c : FitnessClass) (cid : Int) :
    findClass (putClass s c) cid = (findClass s cid).map (replaceClass c) :=
  find?_map_pres (replaceClass c) (fun x => x.id == cid)
    (fun x => by simp only [replaceClass_id]) s.classes

/-- Looking up the updated row after putClass yields the new value. -/
theorem findClass_put_self (s : Store) (c c' : FitnessClass) (cid : Int)
    (hfind : findClass s cid = some c) (hid : c'.id = c.id) :
    findClass (putClass s c') cid = some c' := by
  rw [findClass_putClass, hfind, Option.map_some']
  unfold replaceClass
  rw [if_pos (beq_iff_eq.mpr hid.symm)]

/-- replaceBooking keeps the primary key. -/
theorem replaceBooking_id (b x : Booking) : (replaceBooking b x).id = x.id := by
  unfold replaceBooking
  split
  · next h => exact (eq_of_beq h).symm
  · rfl

/-- putBooking rewrites each row through replaceBooking, as seen by findBooking. -/
theorem findBooking_putBooking (s : Store) (b : Booking) (bid : Int) :
    findBooking (putBooking s b) bid = (findBooking s bid).map (replaceBooking b) :=
  find?_map_pres (replaceBooking b) (fun x => x.id == bid)
    (fun x => by simp only [replaceBooking_id]) s.bookings

/-- Looking up the updated booking after putBooking yields the new value. -/
theorem findBooking_put_self (s : Store) (b b' : Booking) (bid : Int)
    (hfind : findBooking s bid = some b) (hid : b'.id = b.id) :
    findBooking (putBooking s b') bid = some b' := by
  rw [findBooking_putBooking, hfind, Option.map_some']
  unfold replaceBooking
  rw [if_pos (beq_iff_eq.mpr hid.symm)]

/-- Closed form of the per-row sweep: the two sequential updates amount to a
single three-way case split (a row moved to active in the first update has
end_time past now false, so the second update never touches it). -/
theorem sweepClass_eq (now : Int) (c : FitnessClass) :
    sweepClass now c =
      (if c.status = "upcoming" ∧ c.start_time ≤ now ∧ now < c.end_time then
        { c with status := "active" }
      else if c.status = "active" ∧ c.end_time ≤ now then
        { c with status := "completed" }
      else c) := by
  unfold sweepClass
  by_cases hA : c.status = "upcoming" ∧ c.start_time ≤ now ∧ now < c.end_time
  · simp only [if_pos hA]
    rw [if_neg]
    rintro ⟨-, h2⟩
    exact absurd h2 (not_le.mpr hA.2.2)
  · simp only [if_neg hA]

/-- The sweep changes only the status field. -/
theorem sweepClass_fields (now : Int) (c : FitnessClass) :
    (sweepClass now c).id = c.id ∧ (sweepClass now c).name = c.name ∧
    (sweepClass now c).class_type = c.class_type ∧
    (sweepClass now c).instructor = c.instructor ∧
    (sweepClass now c).start_time = c.start_time ∧
    (sweepClass now c).end_time = c.end_time ∧
    (sweepClass now c).capacity = c.capacity ∧
    (sweepClass now c).available_slots = c.available_slots ∧
    (sweepClass now c).timezone = c.timezone := by
  rw [sweepClass_eq]
  split_ifs <;> exact ⟨rfl, rfl, rfl, rfl, rfl, rfl, rfl, rfl, rfl⟩

/-- A genuinely upcoming row (start still in the future) is untouched by the
sweep. -/
theorem sweepClass_stable (now : Int) (c : FitnessClass)
    (hst : c.status = "upcoming") (h1 : now < c.start_time) :
    sweepClass now c = c := by
  rw [sweepClass_eq]
  rw [if_neg (by rintro ⟨-, h2, -⟩; exact absurd h2 (not_le.mpr h1))]
  rw [if_neg (by rintro ⟨h2, -⟩; rw [hst] at h2; exact absurd h2 (by decide))]

/-- The sweep is a pure map over the class table. -/
theorem findClass_sweep (now : Int) (s : Store) (cid : Int) :
    findClass (update_classes_status now s) cid
      = (findClass s cid).map (sweepClass now) :=
  find?_map_pres (sweepClass now) (fun x => x.id == cid)
    (fun x => by simp only [(sweepClass_fields now x).1]) s.classes

/-- The effective status for a class strictly before its start is upcoming
(given a well-formed window). -/
theorem get_class_status_upcoming (now : Int) (c : FitnessClass)
    (h1 : now < c.start_time) (h2 : c.start_time < c.end_time) :
    get_class_status now c = "upcoming" := by
  unfold get_class_status
  rw [if_neg (not_le.mpr (lt_trans h1 h2)), if_neg (not_le.mpr h1)]

/-- get_class is a pure read when the stored status is already the effective
one. -/
theorem get_class_stable (now : Int) (s : Store) (cid : Int) (c : FitnessClass)
    (hfind : findClass s cid = some c) (hstat : get_class_status now c = c.status) :
    get_class now s cid = (s, .ok c) := by
  unfold get_class
  rw [hfind]
  simp [hstat]

/-- Fully general description of get_class on a present row: the returned
class is the row with its status corrected, and the state differs at most by
that corrected row being written back. -/
theorem get_class_found (now : Int) (s : Store) (cid : Int) (c : FitnessClass)
    (hfind : findClass s cid = some c) :
    ∃ s', get_class now s cid = (s', .ok { c with status := get_class_status now c })
      ∧ findClass s' cid = some { c with status := get_class_status now c }
      ∧ s'.bookings = s.bookings
      ∧ s'.next_booking_id = s.next_booking_id
      ∧ (∀ x ∈ s'.classes, x = { c with status := get_class_status now c } ∨ x ∈ s.classes) := by
  unfold get_class
  rw [hfind]
  by_cases h : get_class_status now c = c.status
  · have hc : ({ c with status := get_class_status now c } : FitnessClass) = c := by
      rw [h]
    refine ⟨s, ?_, ?_, rfl, rfl, fun x hx => Or.inr hx⟩
    · simp only [h, hc, ne_eq, not_true_eq_false, if_false]
    · rw [hc]; exact hfind
  · refine ⟨putClass s { c with status := get_class_status now c }, ?_, ?_, rfl, rfl, ?_⟩
    · simp only [ne_eq, h, not_false_eq_true, if_true]
    · exact findClass_put_self s c _ cid hfind rfl
    · intro x hx
      obtain ⟨y, hy, hyx⟩ := List.mem_map.mp hx
      unfold replaceClass at hyx
      by_cases hid : (y.id == FitnessClass.id { c with status := get_class_status now c }) = true
      · rw [if_pos hid] at hyx; exact Or.inl hyx.symm
      · rw [if_neg hid] at hyx; exact Or.inr (hyx ▸ hy)

/-- Description of update_available_slots on a present, status-stable row
with a non-negative resulting count: the row's slot count becomes
`available_slots + change` and everything else is untouched. -/
theorem update_available_slots_stable (now : Int) (s : Store) (cid : Int)
    (c : FitnessClass) (change : Int)
    (hfind : findClass s cid = some c) (hstat : get_class_status now c = c.status)
    (hge : 0 ≤ c.available_slots + change) :
    update_available_slots now s cid change =
      (putClass s { c with available_slots := c.available_slots + change },
       .ok { c with available_slots := c.available_slots + change }) := by
  unfold update_available_slots
  rw [get_class_stable now s cid c hfind hstat]
  simp only [not_lt.mpr hge, if_false]

/-- The sweep is idempotent row by row. -/
theorem sweepClass_idem (now : Int) (c : FitnessClass) :
    sweepClass now (sweepClass now c) = sweepClass now c := by
  rw [sweepClass_eq now c]
  by_cases hA : c.status = "upcoming" ∧ c.start_time ≤ now ∧ now < c.end_time
  · rw [if_pos hA, sweepClass_eq]
    rw [if_neg (by rintro ⟨h, -⟩; simp at h)]
    rw [if_neg (by rintro ⟨-, h⟩; exact absurd h (not_le.mpr hA.2.2))]
  · rw [if_neg hA]
    by_cases hB : c.status = "active" ∧ c.end_time ≤ now
    · rw [if_pos hB, sweepClass_eq]
      rw [if_neg (by rintro ⟨h, -⟩; simp at h)]
      rw [if_neg (by rintro ⟨h, -⟩; simp at h)]
    · rw [if_neg hB, sweepClass_eq, if_neg hA, if_neg hB]

/-- C9: update_classes_status (reconcileStatuses) is idempotent — running the
sweep twice at the same instant yields exactly the same store, hence the same
class statuses, as running it once. -/
theorem c9_reconcile_idempotent (now : Int) (s : Store) :
    update_classes_status now (update_classes_status now s)
      = update_classes_status now s := by
  unfold update_classes_status
  congr 1
  rw [List.map_map]
  exact List.map_congr_left (fun c _ => sweepClass_idem now c)

/-- C2 (counterexample): a class whose stored status is still upcoming though
its end_time (10) is already past now (20) keeps status upcoming after
update_classes_status, whereas the claim requires status completed whenever
now is at or past end_time. -/
theorem c2_counterexample_stale_upcoming :
    exClassStale.end_time ≤ 20
    ∧ ((update_classes_status 20 exStoreStale).classes.head?.map
        (fun c => c.status)) = some "upcoming"
    ∧ ("upcoming" : String) ≠ "completed" := by decide

/-- C2 (amended): after update_classes_status(now), each stored class is its
sweep image, and the sweep sets a row to active exactly when it was upcoming
with start_time at or before now and now before end_time, to completed
exactly when it was active with end_time at or before now, and otherwise
leaves the stored status unchanged — in particular a stale upcoming row whose
end_time has already passed stays upcoming, not completed. -/
theorem c2_sweep_characterization (now : Int) (s : Store) :
    (update_classes_status now s).classes = s.classes.map (sweepClass now)
    ∧ ∀ c : FitnessClass, (sweepClass now c).status =
        (if c.status = "upcoming" ∧ c.start_time ≤ now ∧ now < c.end_time then "active"
        else if c.status = "active" ∧ c.end_time ≤ now then "completed"
        else c.status) := by
  refine ⟨rfl, fun c => ?_⟩
  rw [sweepClass_eq]
  split_ifs <;> rfl

/-- C10: for a non-positive booking id, both update_booking_status and
delete_booking fail with the 400 "Invalid booking ID" validation error (not
the 404 NotFound) and return the store exactly as it was, so no booking and
no slot count changes. -/
theorem c10_invalid_booking_id (allowed : List String) (now : Int) (s : Store)
    (bid : Int) (u : BookingUpdate) (h : bid ≤ 0) :
    update_booking_status allowed now s bid u
        = (s, .error ⟨400, "Invalid booking ID"⟩)
    ∧ delete_booking now s bid = (s, .error ⟨400, "Invalid booking ID"⟩) := by
  have hg : get_booking s bid = .error ⟨400, "Invalid booking ID"⟩ := by
    unfold get_booking
    rw [if_pos h]
  constructor
  · unfold update_booking_status
    rw [hg]
  · unfold delete_booking
    rw [hg]

/-- C10 witness: booking id 0 against the concrete store with one confirmed
booking. -/
theorem c10_witness :
    update_booking_status booking_allowed 0 exStoreBooked 0 ⟨some "cancelled"⟩
        = (exStoreBooked, .error ⟨400, "Invalid booking ID"⟩)
    ∧ delete_booking 0 exStoreBooked 0
        = (exStoreBooked, .error ⟨400, "Invalid booking ID"⟩) :=
  c10_invalid_booking_id booking_allowed 0 exStoreBooked 0 ⟨some "cancelled"⟩
    (by decide)

/-- C1 (code behavior at the failing input): booking "A@x.com" into the open
class (2 of 2 slots free) when the booking INSERT itself fails leaves the
store with available_slots = 1 — the decrement committed by
update_available_slots survives the rollback — and with no booking row, while
the claim requires available_slots back at 2. -/
theorem c1_failed_insert_keeps_decrement :
    (create_booking false 0 exStoreOpen ⟨1, "Alice", "A@x.com"⟩).2
        = .error ⟨500, "Failed to create booking"⟩
    ∧ ((create_booking false 0 exStoreOpen ⟨1, "Alice", "A@x.com"⟩).1.classes.head?.map
        (fun c => c.available_slots)) = some 1
    ∧ exClassOpen.available_slots = 2
    ∧ (create_booking false 0 exStoreOpen ⟨1, "Alice", "A@x.com"⟩).1.bookings = [] := by
  decide

/-- C3 (counterexample): update_available_slots with delta +1 on a class that
already has available_slots = capacity = 1 persists available_slots = 2,
strictly above capacity — the upper bound of the claimed invariant is not
enforced. -/
theorem c3_counterexample_overcapacity :
    ((update_available_slots 0 exStoreCapOne 1 1).1.classes.head?.map
        (fun c => (c.available_slots, c.capacity))) = some (2, 1)
    ∧ (update_available_slots 0 exStoreCapOne 1 1).2
        = .ok { exClassCapOne with available_slots := 2 }
    ∧ exClassCapOne.capacity < 2 := by
  decide

/-- C7 (counterexample): a duplicate booking attempt ("A@x.com" after
"a@x.com") against a class whose slots are exhausted fails with the 400
capacity error, not the 409 ConflictError the claim promises for every
duplicate attempt — the capacity check runs before the duplicate check. -/
theorem c7_counterexample_capacity_precedence :
    (create_booking true 0 exStoreBooked ⟨1, "A2", "A@x.com"⟩).2
        = .error ⟨400, "No available slots in this class"⟩
    ∧ (⟨400, "No available slots in this class"⟩ : HTTPError).status_code ≠ 409
    ∧ exBookingA.class_id = 1 ∧ exBookingA.client_email = lower "A@x.com" := by
  decide

/-- C4 (counterexample): on a store holding one stale upcoming class whose
window [0, 10) strictly contains now = 5, get_upcoming_classes leaves the
store untouched, whereas the spec-worded listUpcoming (reconcile first, then
query) would have committed the upcoming-to-active transition — so the source
operation does not first run reconcileStatuses as claimed. -/
theorem c4_counterexample_no_reconcile :
    (get_upcoming_classes convId 5 exStoreStale none).1 = exStoreStale
    ∧ (listUpcoming_spec convId 5 exStoreStale none).1 ≠ exStoreStale := by
  decide

/-- With no filter the query is the plain status/start filter. -/
theorem upcoming_query_none (now : Int) (s : Store) :
    upcoming_query now s none
      = s.classes.filter (fun c => c.status == "upcoming" && decide (now < c.start_time)) := rfl

/-- With the (falsy) empty-string filter the query is the plain filter too. -/
theorem upcoming_query_some_empty (now : Int) (s : Store) :
    upcoming_query now s (some "")
      = s.classes.filter (fun c => c.status == "upcoming" && decide (now < c.start_time)) := rfl

/-- With a non-empty filter the class_type filter is applied on top. -/
theorem upcoming_query_some (now : Int) (s : Store) (t : String) (ht : t ≠ "") :
    upcoming_query now s (some t)
      = (s.classes.filter
          (fun c => c.status == "upcoming" && decide (now < c.start_time))).filter
            (fun c => c.class_type == t) := by
  unfold upcoming_query
  simp only [Option.getD_some, if_neg ht]

/-- C4 (amended): get_upcoming_classes leaves the store exactly as it was (no
reconcile sweep, no commit) and returns, in some order sorted ascending by
stored start_time, exactly the classes whose stored status is upcoming and
whose start_time is strictly after now, filtered by class_type when a
non-empty filter is given, each with its times converted to its own stored
timezone. -/
theorem c4_list_upcoming_characterization (conv : Int → String → Int) (now : Int)
    (s : Store) (ct : Option String)
    (hct : ∀ t, ct = some t → t = "" ∨ t ∈ class_types) :
    ∃ l : List FitnessClass,
      get_upcoming_classes conv now s ct = (s, .ok (l.map (display_class conv)))
      ∧ List.Sorted startLE l
      ∧ l.Perm (upcoming_query now s ct)
      ∧ ∀ c : FitnessClass, c ∈ l ↔
          (c ∈ s.classes ∧ c.status = "upcoming" ∧ now < c.start_time
            ∧ ∀ t, ct = some t → t ≠ "" → c.class_type = t) := by
  refine ⟨List.insertionSort startLE (upcoming_query now s ct), ?_,
    List.sorted_insertionSort startLE _, List.perm_insertionSort startLE _, ?_⟩
  · unfold get_upcoming_classes
    rw [if_neg]
    rintro ⟨h1, h2⟩
    cases hc : ct with
    | none => rw [hc] at h1; exact h1 rfl
    | some t =>
      rw [hc] at h1 h2
      rcases hct t hc with h | h
      · exact h1 (by rw [Option.getD_some, h])
      · rw [Option.getD_some] at h2; exact h2 h
  · intro c
    rw [List.mem_insertionSort]
    cases hc : ct with
    | none =>
      rw [upcoming_query_none]
      simp only [List.mem_filter, Bool.and_eq_true, beq_iff_eq, decide_eq_true_eq]
      constructor
      · rintro ⟨hm, hs, hn⟩
        exact ⟨hm, hs, hn, fun t ht => by cases ht⟩
      · rintro ⟨hm, hs, hn, -⟩
        exact ⟨hm, hs, hn⟩
    | some t =>
      by_cases ht : t = ""
      · subst ht
        rw [upcoming_query_some_empty]
        simp only [List.mem_filter, Bool.and_eq_true, beq_iff_eq, decide_eq_true_eq]
        constructor
        · rintro ⟨hm, hs, hn⟩
          refine ⟨hm, hs, hn, fun t' ht' hne => ?_⟩
          cases ht'
          exact absurd rfl hne
        · rintro ⟨hm, hs, hn, -⟩
          exact ⟨hm, hs, hn⟩
      · rw [upcoming_query_some now s t ht]
        simp only [List.mem_filter, Bool.and_eq_true, beq_iff_eq, decide_eq_true_eq]
        constructor
        · rintro ⟨⟨hm, hs, hn⟩, hty⟩
          exact ⟨hm, hs, hn, fun t' ht' _ => by cases ht'; exact hty⟩
        · rintro ⟨hm, hs, hn, hty⟩
          exact ⟨⟨hm, hs, hn⟩, hty t rfl ht⟩

/-- C4 witness: the characterization at the concrete open store with no type
filter. -/
theorem c4_witness :
    ∃ l : List FitnessClass,
      get_upcoming_classes convId 0 exStoreOpen none
          = (exStoreOpen, .ok (l.map (display_class convId)))
      ∧ List.Sorted startLE l
      ∧ l.Perm (upcoming_query 0 exStoreOpen none)
      ∧ ∀ c : FitnessClass, c ∈ l ↔
          (c ∈ exStoreOpen.classes ∧ c.status = "upcoming" ∧ 0 < c.start_time
            ∧ ∀ t, (none : Option String) = some t → t ≠ "" → c.class_type = t) :=
  c4_list_upcoming_characterization convId 0 exStoreOpen none
    (fun t ht => by cases ht)

/-- C8: for a payload passing the timezone, class-type and status
validations, create_class returns the 409 ConflictError exactly when some
existing class shares its name and has a half-open-overlapping interval with
the (timezone-converted) new window; and with no such overlap and a duration
of at least 30 minutes the creation succeeds and appends the class — in
particular an existing same-name class that merely touches at an endpoint
(existing end = new start or existing start = new end) does not block
creation. -/
theorem c8_overlap_conflict (validTZ : String → Bool) (conv : Int → String → Int)
    (s : Store) (d : ClassData)
    (h1 : validTZ d.timezone = true) (h2 : d.class_type ∈ class_types)
    (h3 : d.status ∈ class_statuses) :
    ((create_class validTZ conv s d).2
        = .error ⟨409, "A class with the same name and overlapping time already exists."⟩
      ↔ ∃ c ∈ s.classes, c.name = d.name
          ∧ c.start_time < conv d.end_time d.timezone
          ∧ conv d.start_time d.timezone < c.end_time)
    ∧ ((∀ c ∈ s.classes, ¬(c.name = d.name
          ∧ c.start_time < conv d.end_time d.timezone
          ∧ conv d.start_time d.timezone < c.end_time)) →
        1800 ≤ conv d.end_time d.timezone - conv d.start_time d.timezone →
        ∃ c' : FitnessClass, (create_class validTZ conv s d).2 = .ok c'
          ∧ (create_class validTZ conv s d).1.classes = s.classes ++ [c']
          ∧ c'.name = d.name
          ∧ c'.start_time = conv d.start_time d.timezone
          ∧ c'.end_time = conv d.end_time d.timezone
          ∧ c'.available_slots = d.capacity ∧ c'.capacity = d.capacity) := by
  unfold create_class
  rw [if_neg (not_not_intro h1), if_neg (not_not_intro h2), if_neg (not_not_intro h3)]
  constructor
  · by_cases hov : (s.classes.find? (fun c =>
        c.name == d.name && decide (c.start_time < conv d.end_time d.timezone)
          && decide (conv d.start_time d.timezone < c.end_time))).isSome
    · rw [if_pos hov]
      constructor
      · intro _
        obtain ⟨c, hc, hp⟩ := List.find?_isSome.mp hov
        simp only [Bool.and_eq_true, beq_iff_eq, decide_eq_true_eq] at hp
        exact ⟨c, hc, hp.1.1, hp.1.2, hp.2⟩
      · intro _
        rfl
    · rw [if_neg hov]
      constructor
      · intro h
        exfalso
        by_cases hd : conv d.end_time d.timezone - conv d.start_time d.timezone < 1800
        · rw [if_pos hd] at h
          have h2 := Except.error.inj h
          exact absurd h2 (by decide)
        · rw [if_neg hd] at h
          exact Except.noConfusion h
      · rintro ⟨c, hc, hname, hso, heo⟩
        exfalso
        refine hov (List.find?_isSome.mpr ⟨c, hc, ?_⟩)
        simp only [Bool.and_eq_true, beq_iff_eq, decide_eq_true_eq]
        exact ⟨⟨hname, hso⟩, heo⟩
  · intro hno hdur
    have hnone : (s.classes.find? (fun c =>
        c.name == d.name && decide (c.start_time < conv d.end_time d.timezone)
          && decide (conv d.start_time d.timezone < c.end_time))) = none := by
      rw [List.find?_eq_none]
      intro c hc
      simp only [Bool.and_eq_true, beq_iff_eq, decide_eq_true_eq, not_and]
      intro hn hs
      exact hno c hc ⟨hn.1, hn.2, hs⟩
    rw [if_neg (by rw [hnone]; exact Bool.false_ne_true),
      if_neg (not_lt.mpr hdur)]
    exact ⟨_, rfl, rfl, rfl, rfl, rfl, rfl, rfl⟩

/-- C8 witness: a second "Yoga AM" whose window [39600, 43200) touches the
existing [36000, 39600) exactly at the endpoint is created successfully. -/
theorem c8_witness :
    ∃ c' : FitnessClass,
      (create_class tzOk convId exStoreYoga exYogaTouch).2 = .ok c'
      ∧ (create_class tzOk convId exStoreYoga exYogaTouch).1.classes
          = exStoreYoga.classes ++ [c']
      ∧ c'.name = exYogaTouch.name
      ∧ c'.start_time = convId exYogaTouch.start_time exYogaTouch.timezone
      ∧ c'.end_time = convId exYogaTouch.end_time exYogaTouch.timezone
      ∧ c'.available_slots = exYogaTouch.capacity
      ∧ c'.capacity = exYogaTouch.capacity :=
  (c8_overlap_conflict tzOk convId exStoreYoga exYogaTouch (by decide) (by decide)
    (by decide)).2 (by decide) (by decide)

/-- The global sweep never changes any class's slot count. -/
theorem slotsAt_sweep (now : Int) (s : Store) (cid : Int) :
    slotsAt (update_classes_status now s) cid = slotsAt s cid := by
  unfold slotsAt
  rw [findClass_sweep, Option.map_map]
  cases findClass s cid with
  | none => rfl
  | some c =>
    simp only [Option.map_some', Function.comp_apply,
      (sweepClass_fields now c).2.2.2.2.2.2.2.1]

/-- Writing back a row that keeps its id and slot count leaves every class's
slot count unchanged. -/
theorem slotsAt_putClass (s : Store) (c c' : FitnessClass) (cid : Int)
    (hfind : findClass s cid = some c) (hid : c'.id = c.id)
    (hslots : c'.available_slots = c.available_slots) (cid' : Int) :
    slotsAt (putClass s c') cid' = slotsAt s cid' := by
  unfold slotsAt
  rw [findClass_putClass, Option.map_map]
  by_cases h : cid' = cid
  · subst h
    rw [hfind]
    simp only [Option.map_some', Function.comp_apply]
    unfold replaceClass
    rw [if_pos (beq_iff_eq.mpr hid.symm), hslots]
  · cases hfx : findClass s cid' with
    | none => rfl
    | some x =>
      simp only [Option.map_some', Function.comp_apply]
      unfold replaceClass
      rw [if_neg]
      intro hbeq
      exact h (by
        rw [← findClass_id s cid' x hfx, eq_of_beq hbeq, hid,
          findClass_id s cid c hfind])


/-- The lazy status fix in get_class never changes any class's slot count. -/
theorem slotsAt_get_class (now : Int) (s : Store) (cid cid' : Int) :
    slotsAt (get_class now s cid).1 cid' = slotsAt s cid' := by
  unfold get_class
  cases hf : findClass s cid with
  | none => rfl
  | some c =>
    dsimp only
    by_cases h : get_class_status now c ≠ c.status
    · rw [if_pos h]
      exact slotsAt_putClass s c { c with status := get_class_status now c }
        cid hf rfl rfl cid'
    · rw [if_neg h]

/-- get_class never touches the bookings table. -/
theorem get_class_bookings (now : Int) (s : Store) (cid : Int) :
    (get_class now s cid).1.bookings = s.bookings := by
  unfold get_class
  cases findClass s cid with
  | none => rfl
  | some c =>
    dsimp only
    by_cases h : get_class_status now c ≠ c.status
    · rw [if_pos h]
      rfl
    · rw [if_neg h]

/-- The effective status ignores the stored status, so the sweep does not
change it. -/
theorem get_class_status_sweep (now : Int) (c : FitnessClass) :
    get_class_status now (sweepClass now c) = get_class_status now c := by
  unfold get_class_status
  rw [(sweepClass_fields now c).2.2.2.2.1, (sweepClass_fields now c).2.2.2.2.2.1]

/-- Slot counts are preserved across any get_class call, equation form. -/
theorem slotsAt_get_class_eq (now : Int) (s s' : Store) (cid : Int)
    (r : Except HTTPError FitnessClass)
    (h : get_class now s cid = (s', r)) (cid' : Int) :
    slotsAt s' cid' = slotsAt s cid' := by
  have hx := slotsAt_get_class now s cid cid'
  rw [h] at hx
  exact hx

/-- Bookings are preserved across any get_class call, equation form. -/
theorem get_class_bookings_eq (now : Int) (s s' : Store) (cid : Int)
    (r : Except HTTPError FitnessClass) (h : get_class now s cid = (s', r)) :
    s'.bookings = s.bookings := by
  have hx := get_class_bookings now s cid
  rw [h] at hx
  exact hx

/-- C7 (amended): whenever some booking already exists for
(class_id, lowercased email), a createBooking for that class with a
case-equivalent email always fails, leaves the bookings table unchanged and
changes no class's slot count; the error is the 409 ConflictError whenever
the class's effective status is upcoming and it has free slots (otherwise the
earlier status or capacity check reports its own error first).  Consequently
at most one booking per (class_id, lowercased email) pair ever exists. -/
theorem c7_duplicate_rejected (flag : Bool) (now : Int) (s : Store)
    (d : BookingData) (b : Booking) (hb : b ∈ s.bookings)
    (hcid : b.class_id = d.class_id) (hem : b.client_email = lower d.client_email) :
    ∃ s' e, create_booking flag now s d = (s', .error e)
      ∧ s'.bookings = s.bookings
      ∧ (∀ cid, slotsAt s' cid = slotsAt s cid)
      ∧ (∀ c, findClass s d.class_id = some c →
          get_class_status now c = "upcoming" → 0 < c.available_slots →
          e = ⟨409, "You have already booked this class."⟩) := by
  unfold create_booking
  cases hf : findClass s d.class_id with
  | none =>
    have hf1 : findClass (update_classes_status now s) d.class_id = none := by
      rw [findClass_sweep, hf]; rfl
    have hgc : get_class now (update_classes_status now s) d.class_id
        = (update_classes_status now s, .error ⟨404, "Class not found"⟩) := by
      unfold get_class; rw [hf1]
    rw [hgc]
    refine ⟨update_classes_status now s, _, rfl, rfl,
      fun cid => slotsAt_sweep now s cid, ?_⟩
    intro c hc
    cases hc
  | some c0 =>
    have hf1 : findClass (update_classes_status now s) d.class_id
        = some (sweepClass now c0) := by
      rw [findClass_sweep, hf]; rfl
    obtain ⟨s2, hgc, hfs2, hbk2, hnb2, hmem2⟩ :=
      get_class_found now (update_classes_status now s) d.class_id
        (sweepClass now c0) hf1
    have hbk : s2.bookings = s.bookings :=
      get_class_bookings_eq now (update_classes_status now s) s2 d.class_id _ hgc
    have hsl : ∀ cid, slotsAt s2 cid = slotsAt s cid := fun cid =>
      (slotsAt_get_class_eq now (update_classes_status now s) s2 d.class_id _ hgc
        cid).trans (slotsAt_sweep now s cid)
    rw [hgc]
    dsimp only
    by_cases h1 : get_class_status now (sweepClass now c0) ≠ "upcoming"
    · rw [if_pos h1]
      refine ⟨s2, _, rfl, hbk, hsl, ?_⟩
      intro c hcfind hcs _
      exfalso
      cases hcfind
      exact h1 (by rw [get_class_status_sweep, hcs])
    · rw [if_neg h1]
      by_cases h2 : (sweepClass now c0).available_slots ≤ 0
      · rw [if_pos h2]
        refine ⟨s2, _, rfl, hbk, hsl, ?_⟩
        intro c hcfind _ hcp
        exfalso
        cases hcfind
        rw [(sweepClass_fields now c0).2.2.2.2.2.2.2.1] at h2
        exact absurd hcp (not_lt.mpr h2)
      · rw [if_neg h2]
        have hdup : (s2.bookings.find? (fun x =>
            x.class_id == d.class_id && x.client_email == lower d.client_email)).isSome
            = true := by
          rw [hbk]
          refine List.find?_isSome.mpr ⟨b, hb, ?_⟩
          simp only [Bool.and_eq_true, beq_iff_eq]
          exact ⟨hcid, hem⟩
        rw [if_pos hdup]
        exact ⟨s2, _, rfl, hbk, hsl, fun c _ _ _ => rfl⟩

/-- C7 witness: a second booking for class 1 with the case-variant email
"B@x.com" against the half-full store is rejected with the 409 conflict and
changes nothing. -/
theorem c7_witness :
    ∃ s' e, create_booking true 0 exStoreHalf ⟨1, "B2", "B@x.com"⟩ = (s', .error e)
      ∧ s'.bookings = exStoreHalf.bookings
      ∧ (∀ cid, slotsAt s' cid = slotsAt exStoreHalf cid)
      ∧ (∀ c, findClass exStoreHalf 1 = some c →
          get_class_status 0 c = "upcoming" → 0 < c.available_slots →
          e = ⟨409, "You have already booked this class."⟩) :=
  c7_duplicate_rejected true 0 exStoreHalf ⟨1, "B2", "B@x.com"⟩ exBookingB
    (by decide) (by decide) (by decide)

/-- Slot counts at other ids are preserved when a row is written back. -/
theorem slotsAt_putClass_other (s : Store) (c c' : FitnessClass) (cid : Int)
    (hfind : findClass s cid = some c) (hid : c'.id = c.id) (cid' : Int)
    (hne : cid' ≠ cid) :
    slotsAt (putClass s c') cid' = slotsAt s cid' := by
  unfold slotsAt
  rw [findClass_putClass, Option.map_map]
  cases hfx : findClass s cid' with
  | none => rfl
  | some x =>
    simp only [Option.map_some', Function.comp_apply]
    unfold replaceClass
    rw [if_neg]
    intro hbeq
    exact hne (by
      rw [← findClass_id s cid' x hfx, eq_of_beq hbeq, hid,
        findClass_id s cid c hfind])

/-- Full description of a successful update_available_slots on a present row:
the row gets its status lazily fixed and its slot count moved by `change`;
bookings, the id counter and every other class's slot count are untouched. -/
theorem update_available_slots_found (now : Int) (s : Store) (cid : Int)
    (c : FitnessClass) (change : Int)
    (hfind : findClass s cid = some c) (hge : 0 ≤ c.available_slots + change) :
    ∃ s', update_available_slots now s cid change
        = (s', .ok { c with
            status := get_class_status now c
            available_slots := c.available_slots + change })
      ∧ findClass s' cid = some { c with
            status := get_class_status now c
            available_slots := c.available_slots + change }
      ∧ s'.bookings = s.bookings
      ∧ slotsAt s' cid = some (c.available_slots + change)
      ∧ (∀ cid', cid' ≠ cid → slotsAt s' cid' = slotsAt s cid')
      ∧ s'.next_booking_id = s.next_booking_id := by
  obtain ⟨s1, hgc, hfs1, hbk1, hnb1, hmem1⟩ := get_class_found now s cid c hfind
  unfold update_available_slots
  rw [hgc]
  dsimp only
  rw [if_neg (not_lt.mpr hge)]
  refine ⟨putClass s1 { c with
    status := get_class_status now c
    available_slots := c.available_slots + change }, rfl, ?_, ?_, ?_, ?_, ?_⟩
  · exact findClass_put_self s1 { c with status := get_class_status now c } _ cid hfs1 rfl
  · exact hbk1
  · unfold slotsAt
    rw [findClass_put_self s1 { c with status := get_class_status now c }
      { c with status := get_class_status now c, available_slots := c.available_slots + change }
      cid hfs1 rfl]
    rfl
  · intro cid' hne
    rw [slotsAt_putClass_other s1 { c with status := get_class_status now c }
      { c with status := get_class_status now c, available_slots := c.available_slots + change }
      cid hfs1 rfl cid' hne]
    exact slotsAt_get_class_eq now s s1 cid _ hgc cid'
  · exact hnb1

/-- A positive, present booking id is fetched successfully. -/
theorem get_booking_found (s : Store) (bid : Int) (b : Booking)
    (hbid : 0 < bid) (hfb : findBooking s bid = some b) :
    get_booking s bid = .ok b := by
  unfold get_booking
  rw [if_neg (not_le.mpr hbid), hfb]

/-- Cancelling a confirmed booking: one slot is released on its class first,
then the booking's status is set to cancelled. -/
theorem update_booking_cancel (allowed : List String) (now : Int) (s : Store)
    (bid : Int) (b : Booking) (c : FitnessClass)
    (hbid : 0 < bid) (hfb : findBooking s bid = some b)
    (hbs : b.status = "confirmed") (hfc : findClass s b.class_id = some c)
    (hge : 0 ≤ c.available_slots + 1) (hcanc : "cancelled" ∈ allowed) :
    ∃ s', update_booking_status allowed now s bid ⟨some "cancelled"⟩
        = (s', .ok { b with status := "cancelled" })
      ∧ findBooking s' bid = some { b with status := "cancelled" }
      ∧ findClass s' b.class_id = some { c with
          status := get_class_status now c
          available_slots := c.available_slots + 1 }
      ∧ slotsAt s' b.class_id = some (c.available_slots + 1)
      ∧ (∀ cid', cid' ≠ b.class_id → slotsAt s' cid' = slotsAt s cid') := by
  obtain ⟨s1, hu, hfc1, hbk1, hslAt1, hslOther1, hnb1⟩ :=
    update_available_slots_found now s b.class_id c 1 hfc hge
  unfold update_booking_status
  rw [get_booking_found s bid b hbid hfb]
  dsimp only
  rw [if_pos ⟨(by decide : ("cancelled" : String) ≠ ""), (by rw [hbs]; decide)⟩]
  rw [if_neg (not_not_intro hcanc)]
  rw [if_pos ⟨rfl, hbs⟩]
  rw [hu]
  dsimp only
  refine ⟨putBooking s1 { b with status := "cancelled" }, rfl, ?_, ?_, ?_, ?_⟩
  · refine findBooking_put_self s1 b _ bid ?_ rfl
    unfold findBooking
    rw [hbk1]
    exact hfb
  · exact hfc1
  · exact hslAt1
  · exact hslOther1

/-- Re-confirming a cancelled booking with free slots: one slot is reserved,
then the booking's status is set back to confirmed. -/
theorem update_booking_reconfirm_ok (allowed : List String) (now : Int)
    (s : Store) (bid : Int) (b : Booking) (c : FitnessClass)
    (hbid : 0 < bid) (hfb : findBooking s bid = some b)
    (hbs : b.status = "cancelled") (hfc : findClass s b.class_id = some c)
    (hpos : 0 < c.available_slots) (hconf : "confirmed" ∈ allowed) :
    ∃ s', update_booking_status allowed now s bid ⟨some "confirmed"⟩
        = (s', .ok { b with status := "confirmed" })
      ∧ findBooking s' bid = some { b with status := "confirmed" }
      ∧ slotsAt s' b.class_id = some (c.available_slots - 1)
      ∧ (∀ cid', cid' ≠ b.class_id → slotsAt s' cid' = slotsAt s cid') := by
  obtain ⟨s1, hgc, hfs1, hbk1, hnb1, hmem1⟩ := get_class_found now s b.class_id c hfc
  have hge : (0 : Int) ≤ ({ c with status := get_class_status now c } :
      FitnessClass).available_slots + (-1) := by
    dsimp only
    omega
  obtain ⟨s2, hu, hfc2, hbk2, hslAt2, hslOther2, hnb2⟩ :=
    update_available_slots_found now s1 b.class_id
      { c with status := get_class_status now c } (-1) hfs1 hge
  unfold update_booking_status
  rw [get_booking_found s bid b hbid hfb]
  dsimp only
  rw [if_pos ⟨(by decide : ("confirmed" : String) ≠ ""), (by rw [hbs]; decide)⟩]
  rw [if_neg (not_not_intro hconf)]
  rw [if_neg (by rintro ⟨h, -⟩; exact absurd h (by decide))]
  rw [if_pos ⟨rfl, hbs⟩]
  rw [hgc]
  dsimp only
  rw [if_neg (not_le.mpr hpos)]
  rw [hu]
  dsimp only
  refine ⟨putBooking s2 { b with status := "confirmed" }, rfl, ?_, ?_, ?_⟩
  · refine findBooking_put_self s2 b _ bid ?_ rfl
    unfold findBooking
    rw [hbk2, hbk1]
    exact hfb
  · have h := hslAt2
    dsimp only at h
    rw [show c.available_slots + (-1) = c.available_slots - 1 from by omega] at h
    exact h
  · intro cid' hne
    exact (hslOther2 cid' hne).trans
      (slotsAt_get_class_eq now s s1 b.class_id _ hgc cid')

/-- Re-confirming a cancelled booking with no free slots: the capacity check
rejects the transition before any mutation, leaving bookings and every slot
count as they were. -/
theorem update_booking_reconfirm_full (allowed : List String) (now : Int)
    (s : Store) (bid : Int) (b : Booking) (c : FitnessClass)
    (hbid : 0 < bid) (hfb : findBooking s bid = some b)
    (hbs : b.status = "cancelled") (hfc : findClass s b.class_id = some c)
    (hzero : c.available_slots = 0) (hconf : "confirmed" ∈ allowed) :
    ∃ s', update_booking_status allowed now s bid ⟨some "confirmed"⟩
        = (s', .error ⟨400, "Cannot re-confirm booking: no available slots"⟩)
      ∧ s'.bookings = s.bookings
      ∧ (∀ cid, slotsAt s' cid = slotsAt s cid) := by
  obtain ⟨s1, hgc, hfs1, hbk1, hnb1, hmem1⟩ := get_class_found now s b.class_id c hfc
  unfold update_booking_status
  rw [get_booking_found s bid b hbid hfb]
  dsimp only
  rw [if_pos ⟨(by decide : ("confirmed" : String) ≠ ""), (by rw [hbs]; decide)⟩]
  rw [if_neg (not_not_intro hconf)]
  rw [if_neg (by rintro ⟨h, -⟩; exact absurd h (by decide))]
  rw [if_pos ⟨rfl, hbs⟩]
  rw [hgc]
  dsimp only
  rw [if_pos hzero.le]
  exact ⟨s1, rfl, hbk1,
    fun cid => slotsAt_get_class_eq now s s1 b.class_id _ hgc cid⟩

/-- C6: cancelling a confirmed booking and then re-confirming it restores the
class's available_slots to its value before the two calls (the cancel
releases one slot, so the immediate re-confirmation always finds a free slot
and reserves it back); and, from any state holding a cancelled booking, the
re-confirmation fails with the 400 CapacityError — leaving the bookings table
and every slot count unchanged — exactly when the class's available_slots is
0 at re-confirmation time, succeeding whenever it is positive. -/
theorem c6_cancel_reconfirm_roundtrip (allowed : List String) (now : Int)
    (s : Store) (bid : Int) (b : Booking) (c : FitnessClass)
    (hbid : 0 < bid) (hfb : findBooking s bid = some b)
    (hbs : b.status = "confirmed") (hfc : findClass s b.class_id = some c)
    (hslots : 0 ≤ c.available_slots)
    (hcanc : "cancelled" ∈ allowed) (hconf : "confirmed" ∈ allowed) :
    (∃ s1 s2, update_booking_status allowed now s bid ⟨some "cancelled"⟩
        = (s1, .ok { b with status := "cancelled" })
      ∧ update_booking_status allowed now s1 bid ⟨some "confirmed"⟩
        = (s2, .ok { b with status := "confirmed" })
      ∧ slotsAt s2 b.class_id = some c.available_slots)
    ∧ (∀ s' b' c', findBooking s' bid = some b' → b'.status = "cancelled" →
        findClass s' b'.class_id = some c' → 0 ≤ c'.available_slots →
        ((c'.available_slots = 0 →
          ∃ s'', update_booking_status allowed now s' bid ⟨some "confirmed"⟩
              = (s'', .error ⟨400, "Cannot re-confirm booking: no available slots"⟩)
            ∧ s''.bookings = s'.bookings
            ∧ (∀ cid, slotsAt s'' cid = slotsAt s' cid))
        ∧ (0 < c'.available_slots →
          ∃ s'', update_booking_status allowed now s' bid ⟨some "confirmed"⟩
              = (s'', .ok { b' with status := "confirmed" })))) := by
  constructor
  · obtain ⟨s1, hA, hfb1, hfc1, hslA, hslOtherA⟩ :=
      update_booking_cancel allowed now s bid b c hbid hfb hbs hfc (by omega) hcanc
    obtain ⟨s2, hB, hfb2, hslB, hslOtherB⟩ :=
      update_booking_reconfirm_ok allowed now s1 bid
        { b with status := "cancelled" }
        { c with
          status := get_class_status now c
          available_slots := c.available_slots + 1 }
        hbid hfb1 rfl hfc1 (by dsimp only; omega) hconf
    refine ⟨s1, s2, hA, hB, ?_⟩
    have h := hslB
    dsimp only at h
    rw [show c.available_slots + 1 - 1 = c.available_slots from by omega] at h
    exact h
  · intro s' b' c' hfb' hbs' hfc' _
    constructor
    · intro hz
      exact update_booking_reconfirm_full allowed now s' bid b' c'
        hbid hfb' hbs' hfc' hz hconf
    · intro hp
      obtain ⟨s'', hB, -, -, -⟩ :=
        update_booking_reconfirm_ok allowed now s' bid b' c'
          hbid hfb' hbs' hfc' hp hconf
      exact ⟨s'', hB⟩

/-- C6 witness: the round trip on the concrete store whose single slot is
held by the confirmed booking. -/
theorem c6_witness :
    (∃ s1 s2, update_booking_status booking_allowed 0 exStoreBooked 1
          ⟨some "cancelled"⟩
        = (s1, .ok { exBookingA with status := "cancelled" })
      ∧ update_booking_status booking_allowed 0 s1 1 ⟨some "confirmed"⟩
        = (s2, .ok { exBookingA with status := "confirmed" })
      ∧ slotsAt s2 exBookingA.class_id = some exClassNoSlots.available_slots)
    ∧ (∀ s' b' c', findBooking s' 1 = some b' → b'.status = "cancelled" →
        findClass s' b'.class_id = some c' → 0 ≤ c'.available_slots →
        ((c'.available_slots = 0 →
          ∃ s'', update_booking_status booking_allowed 0 s' 1 ⟨some "confirmed"⟩
              = (s'', .error ⟨400, "Cannot re-confirm booking: no available slots"⟩)
            ∧ s''.bookings = s'.bookings
            ∧ (∀ cid, slotsAt s'' cid = slotsAt s' cid))
        ∧ (0 < c'.available_slots →
          ∃ s'', update_booking_status booking_allowed 0 s' 1 ⟨some "confirmed"⟩
              = (s'', .ok { b' with status := "confirmed" })))) :=
  c6_cancel_reconfirm_roundtrip booking_allowed 0 exStoreBooked 1 exBookingA
    exClassNoSlots (by decide) (by decide) (by decide) (by decide) (by decide)
    (by decide) (by decide)

/-- A single successful createBooking against a genuinely upcoming class with
a free slot and no duplicate: the slot count drops by one and exactly one
confirmed booking row is appended. -/
theorem create_booking_step (now : Int) (s : Store) (cid : Int) (nm e : String)
    (c : FitnessClass)
    (hfind : findClass s cid = some c) (hst : c.status = "upcoming")
    (h1 : now < c.start_time) (h2 : c.start_time < c.end_time)
    (hpos : 0 < c.available_slots)
    (hdup : ∀ x ∈ s.bookings, ¬(x.class_id = cid ∧ x.client_email = lower e)) :
    ∃ s' nb, create_booking true now s ⟨cid, nm, e⟩ = (s', .ok nb)
      ∧ findClass s' cid = some { c with available_slots := c.available_slots - 1 }
      ∧ s'.bookings = s.bookings ++ [nb]
      ∧ nb.class_id = cid ∧ nb.client_email = lower e := by
  have hsw : sweepClass now c = c := sweepClass_stable now c hst h1
  have hf1 : findClass (update_classes_status now s) cid = some c := by
    rw [findClass_sweep, hfind, Option.map_some', hsw]
  have hgcs : get_class_status now c = "upcoming" :=
    get_class_status_upcoming now c h1 h2
  have hgc : get_class now (update_classes_status now s) cid
      = (update_classes_status now s, .ok c) :=
    get_class_stable now (update_classes_status now s) cid c hf1 (by rw [hgcs, hst])
  have hdnone : ((update_classes_status now s).bookings.find? (fun x =>
      x.class_id == cid && x.client_email == lower e)) = none := by
    rw [show (update_classes_status now s).bookings = s.bookings from rfl,
      List.find?_eq_none]
    intro x hx
    simp only [Bool.and_eq_true, beq_iff_eq, not_and]
    intro hxc hxe
    exact (hdup x hx) ⟨hxc, hxe⟩
  obtain ⟨s3, hu, hfc3, hbk3, hslAt3, hslOther3, hnb3⟩ :=
    update_available_slots_found now (update_classes_status now s) cid c (-1)
      hf1 (by omega)
  have hrec : ({ c with
      status := get_class_status now c
      available_slots := c.available_slots + (-1) } : FitnessClass)
      = { c with available_slots := c.available_slots - 1 } := by
    rw [hgcs, ← hst, show c.available_slots + (-1) = c.available_slots - 1 from by omega]
  unfold create_booking
  rw [hgc]
  dsimp only
  rw [if_neg (not_not_intro hst)]
  rw [if_neg (not_le.mpr hpos)]
  rw [if_neg (by rw [hdnone]; exact Bool.false_ne_true)]
  rw [hu]
  dsimp only
  rw [if_pos rfl]
  refine ⟨_, _, rfl, ?_, ?_, rfl, rfl⟩
  · rw [show findClass { s3 with
        bookings := s3.bookings ++ [⟨s3.next_booking_id, cid, nm, lower e, now, "confirmed"⟩]
        next_booking_id := s3.next_booking_id + 1 } cid = findClass s3 cid from rfl]
    rw [hfc3, hrec]
  · rw [show ({ s3 with
        bookings := s3.bookings ++ [⟨s3.next_booking_id, cid, nm, lower e, now, "confirmed"⟩]
        next_booking_id := s3.next_booking_id + 1 } : Store).bookings
      = s3.bookings ++ [⟨s3.next_booking_id, cid, nm, lower e, now, "confirmed"⟩] from rfl]
    rw [hbk3]
    rfl

/-- Iterating createBooking over a list of fresh, pairwise-distinct
(lowercased) emails against a genuinely upcoming class with enough slots: all
calls succeed and the slot count drops by exactly the number of emails. -/
theorem create_many_spec (now : Int) (cid : Int) (nm : String) :
    ∀ (es : List String) (s : Store) (c : FitnessClass),
    findClass s cid = some c → c.status = "upcoming" →
    now < c.start_time → c.start_time < c.end_time →
    ((es.length : Int)) ≤ c.available_slots →
    (es.map lower).Nodup →
    (∀ e ∈ es, ∀ x ∈ s.bookings, ¬(x.class_id = cid ∧ x.client_email = lower e)) →
    ∃ s', create_many now cid nm es s = (s', true)
      ∧ findClass s' cid
          = some { c with available_slots := c.available_slots - es.length }
  | [], s, c, hfind, _, _, _, _, _, _ => by
    refine ⟨s, rfl, ?_⟩
    rw [show c.available_slots - ((List.length ([] : List String) : Int))
      = c.available_slots from by simp]
    exact hfind
  | e :: es, s, c, hfind, hst, h1, h2, hlen, hnd, hfresh => by
    have hlc : ((e :: es).length : Int) = (es.length : Int) + 1 := by
      simp [List.length_cons]
    have hpos : 0 < c.available_slots := by
      rw [hlc] at hlen
      omega
    obtain ⟨s1, nb, hstep, hfc1, hbk1, hnbc, hnbe⟩ :=
      create_booking_step now s cid nm e c hfind hst h1 h2 hpos
        (fun x hx => hfresh e (List.mem_cons_self e es) x hx)
    have hndtail : (es.map lower).Nodup := by
      rw [List.map_cons, List.nodup_cons] at hnd
      exact hnd.2
    have hhead : lower e ∉ es.map lower := by
      rw [List.map_cons, List.nodup_cons] at hnd
      exact hnd.1
    have hfresh1 : ∀ e' ∈ es, ∀ x ∈ s1.bookings,
        ¬(x.class_id = cid ∧ x.client_email = lower e') := by
      intro e' he' x hx
      rw [hbk1] at hx
      rcases List.mem_append.mp hx with hx | hx
      · exact hfresh e' (List.mem_cons_of_mem e he') x hx
      · have hxnb : x = nb := List.mem_singleton.mp hx
        rintro ⟨-, hxe⟩
        rw [hxnb, hnbe] at hxe
        exact hhead (hxe ▸ List.mem_map_of_mem lower he')
    have hlen1 : ((es.length : Int))
        ≤ ({ c with available_slots := c.available_slots - 1 } :
            FitnessClass).available_slots := by
      dsimp only
      rw [hlc] at hlen
      omega
    obtain ⟨s', hmany, hfc'⟩ := create_many_spec now cid nm es s1
      { c with available_slots := c.available_slots - 1 }
      hfc1 hst h1 h2 hlen1 hndtail hfresh1
    refine ⟨s', ?_, ?_⟩
    · unfold create_many
      rw [hstep]
      exact hmany
    · rw [hfc']
      dsimp only
      rw [show c.available_slots - 1 - ((es.length : Int))
        = c.available_slots - (((e :: es).length : Int)) from by rw [hlc]; omega]

/-- createBooking against a genuinely upcoming class with no free slot fails
with the 400 capacity error before touching bookings or slot counts. -/
theorem create_booking_full (now : Int) (s : Store) (cid : Int) (nm e : String)
    (c : FitnessClass)
    (hfind : findClass s cid = some c) (hst : c.status = "upcoming")
    (h1 : now < c.start_time) (h2 : c.start_time < c.end_time)
    (hzero : c.available_slots ≤ 0) :
    ∃ s', create_booking true now s ⟨cid, nm, e⟩
        = (s', .error ⟨400, "No available slots in this class"⟩)
      ∧ s'.bookings = s.bookings
      ∧ findClass s' cid = some c := by
  have hsw : sweepClass now c = c := sweepClass_stable now c hst h1
  have hf1 : findClass (update_classes_status now s) cid = some c := by
    rw [findClass_sweep, hfind, Option.map_some', hsw]
  have hgc : get_class now (update_classes_status now s) cid
      = (update_classes_status now s, .ok c) :=
    get_class_stable now (update_classes_status now s) cid c hf1
      (by rw [get_class_status_upcoming now c h1 h2, hst])
  unfold create_booking
  rw [hgc]
  dsimp only
  rw [if_neg (not_not_intro hst)]
  rw [if_pos hzero]
  exact ⟨update_classes_status now s, rfl, rfl, hf1⟩

/-- C5: against a class with available_slots = capacity, genuinely upcoming,
N createBooking calls with N pairwise-distinct (lowercased) fresh emails all
succeed and leave available_slots = capacity − N; when N = capacity, one
further call with any email fails with the 400 CapacityError, changes no
booking, and leaves available_slots at 0. -/
theorem c5_capacity_consumption (now : Int) (s : Store) (cid : Int)
    (nm e' : String) (es : List String) (c : FitnessClass)
    (hfind : findClass s cid = some c) (hst : c.status = "upcoming")
    (h1 : now < c.start_time) (h2 : c.start_time < c.end_time)
    (hcap : c.available_slots = c.capacity)
    (hlen : (es.length : Int) ≤ c.capacity)
    (hnd : (es.map lower).Nodup)
    (hfresh : ∀ e ∈ es, ∀ x ∈ s.bookings,
      ¬(x.class_id = cid ∧ x.client_email = lower e)) :
    ∃ s', create_many now cid nm es s = (s', true)
      ∧ findClass s' cid
          = some { c with available_slots := c.capacity - es.length }
      ∧ ((es.length : Int) = c.capacity →
          ∃ s'', create_booking true now s' ⟨cid, nm, e'⟩
              = (s'', .error ⟨400, "No available slots in this class"⟩)
            ∧ s''.bookings = s'.bookings
            ∧ slotsAt s'' cid = some 0) := by
  obtain ⟨s', hmany, hfc'⟩ := create_many_spec now cid nm es s c hfind hst h1 h2
    (by omega) hnd hfresh
  rw [hcap] at hfc'
  refine ⟨s', hmany, hfc', ?_⟩
  intro heq
  obtain ⟨s'', hfull, hbk'', hfc''⟩ := create_booking_full now s' cid nm e'
    { c with available_slots := c.capacity - (es.length : Int) }
    hfc' hst h1 h2 (by dsimp only; omega)
  refine ⟨s'', hfull, hbk'', ?_⟩
  unfold slotsAt
  rw [hfc'']
  simp only [Option.map_some']
  congr 1
  dsimp only
  omega

/-- C5 witness: two bookings fill the capacity-2 class, and the length-equals
capacity branch applies to a third email. -/
theorem c5_witness :
    ∃ s', create_many 0 1 "N" ["a@x.com", "B@x.com"] exStoreOpen = (s', true)
      ∧ findClass s' 1 = some { exClassOpen with
          available_slots := exClassOpen.capacity
            - ((["a@x.com", "B@x.com"].length : Nat) : Int) }
      ∧ ((((["a@x.com", "B@x.com"].length : Nat) : Int)) = exClassOpen.capacity →
          ∃ s'', create_booking true 0 s' ⟨1, "N", "c@x.com"⟩
              = (s'', .error ⟨400, "No available slots in this class"⟩)
            ∧ s''.bookings = s'.bookings
            ∧ slotsAt s'' 1 = some 0) :=
  c5_capacity_consumption 0 exStoreOpen 1 "N" "c@x.com" ["a@x.com", "B@x.com"]
    exClassOpen (by decide) (by decide) (by decide) (by decide) (by decide)
    (by decide) (by decide) (by decide)

/-- The sweep preserves non-negativity of all slot counts. -/
theorem slots_ok_sweep (now : Int) (s : Store) (h : slots_ok s) :
    slots_ok (update_classes_status now s) := by
  intro c hc
  obtain ⟨y, hy, rfl⟩ := List.mem_map.mp hc
  rw [(sweepClass_fields now y).2.2.2.2.2.2.2.1]
  exact h y hy

/-- Writing back a row with a non-negative slot count preserves slots_ok. -/
theorem slots_ok_putClass (s : Store) (c : FitnessClass) (h : slots_ok s)
    (hc : 0 ≤ c.available_slots) : slots_ok (putClass s c) := by
  intro x hx
  obtain ⟨y, hy, rfl⟩ := List.mem_map.mp hx
  unfold replaceClass
  split
  · exact hc
  · exact h y hy

/-- The lazy status fix preserves slots_ok. -/
theorem slots_ok_get_class (now : Int) (s : Store) (cid : Int) (h : slots_ok s) :
    slots_ok (get_class now s cid).1 := by
  unfold get_class
  cases hf : findClass s cid with
  | none => exact h
  | some c =>
    dsimp only
    by_cases hx : get_class_status now c ≠ c.status
    · rw [if_pos hx]
      exact slots_ok_putClass s _ h (h c (findClass_mem s cid c hf))
    · rw [if_neg hx]
      exact h

/-- update_available_slots preserves slots_ok for every delta: a negative
result is rejected by its own guard, so only non-negative counts are ever
persisted. -/
theorem slots_ok_update_slots (now : Int) (s : Store) (cid change : Int)
    (h : slots_ok s) : slots_ok (update_available_slots now s cid change).1 := by
  unfold update_available_slots
  rcases hgc : get_class now s cid with ⟨s1, r⟩
  have hs1 : slots_ok s1 := by
    have hx := slots_ok_get_class now s cid h
    rw [hgc] at hx
    exact hx
  cases r with
  | error e => exact hs1
  | ok c =>
    dsimp only
    by_cases hneg : c.available_slots + change < 0
    · rw [if_pos hneg]
      exact hs1
    · rw [if_neg hneg]
      exact slots_ok_putClass s1 _ hs1 (by dsimp only; omega)

/-- createBooking preserves slots_ok on every path. -/
theorem slots_ok_create_booking (flag : Bool) (now : Int) (s : Store)
    (d : BookingData) (h : slots_ok s) :
    slots_ok (create_booking flag now s d).1 := by
  unfold create_booking
  rcases hgc : get_class now (update_classes_status now s) d.class_id with ⟨s2, r⟩
  have hs2 : slots_ok s2 := by
    have hx := slots_ok_get_class now (update_classes_status now s) d.class_id
      (slots_ok_sweep now s h)
    rw [hgc] at hx
    exact hx
  cases r with
  | error e => exact hs2
  | ok c =>
    dsimp only
    by_cases h1 : c.status ≠ "upcoming"
    · rw [if_pos h1]
      exact hs2
    · rw [if_neg h1]
      by_cases h2 : c.available_slots ≤ 0
      · rw [if_pos h2]
        exact hs2
      · rw [if_neg h2]
        by_cases h3 : (s2.bookings.find? (fun x =>
            x.class_id == d.class_id && x.client_email == lower d.client_email)).isSome = true
        · rw [if_pos h3]
          exact hs2
        · rw [if_neg h3]
          rcases hu : update_available_slots now s2 d.class_id (-1) with ⟨s3, r3⟩
          have hs3 : slots_ok s3 := by
            have hx := slots_ok_update_slots now s2 d.class_id (-1) hs2
            rw [hu] at hx
            exact hx
          cases r3 with
          | error e => exact hs3
          | ok c3 =>
            dsimp only
            by_cases hf : flag = true
            · rw [if_pos hf]
              exact hs3
            · rw [if_neg hf]
              exact hs3

/-- updateBookingStatus preserves slots_ok on every path. -/
theorem slots_ok_update_booking (allowed : List String) (now : Int) (s : Store)
    (bid : Int) (u : BookingUpdate) (h : slots_ok s) :
    slots_ok (update_booking_status allowed now s bid u).1 := by
  unfold update_booking_status
  cases get_booking s bid with
  | error e => exact h
  | ok b =>
    cases u.status with
    | none => exact h
    | some st =>
      dsimp only
      by_cases hc1 : st ≠ "" ∧ st ≠ b.status
      · rw [if_pos hc1]
        by_cases hc2 : ¬ (st ∈ allowed)
        · rw [if_pos hc2]
          exact h
        · rw [if_neg hc2]
          by_cases hc3 : st = "cancelled" ∧ b.status = "confirmed"
          · rw [if_pos hc3]
            rcases hus : update_available_slots now s b.class_id 1 with ⟨s1, r1⟩
            have hs1 : slots_ok s1 := by
              have hx := slots_ok_update_slots now s b.class_id 1 h
              rw [hus] at hx
              exact hx
            cases r1 with
            | error e => exact hs1
            | ok c1 => exact hs1
          · rw [if_neg hc3]
            by_cases hc4 : st = "confirmed" ∧ b.status = "cancelled"
            · rw [if_pos hc4]
              rcases hgc : get_class now s b.class_id with ⟨s1, r1⟩
              have hs1 : slots_ok s1 := by
                have hx := slots_ok_get_class now s b.class_id h
                rw [hgc] at hx
                exact hx
              cases r1 with
              | error e => exact hs1
              | ok c1 =>
                dsimp only
                by_cases hc5 : c1.available_slots ≤ 0
                · rw [if_pos hc5]
                  exact hs1
                · rw [if_neg hc5]
                  rcases hus : update_available_slots now s1 b.class_id (-1) with ⟨s2, r2⟩
                  have hs2 : slots_ok s2 := by
                    have hx := slots_ok_update_slots now s1 b.class_id (-1) hs1
                    rw [hus] at hx
                    exact hx
                  cases r2 with
                  | error e => exact hs2
                  | ok c2 => exact hs2
            · rw [if_neg hc4]
              exact h
      · rw [if_neg hc1]
        exact h

/-- deleteBooking preserves slots_ok on every path. -/
theorem slots_ok_delete_booking (now : Int) (s : Store) (bid : Int)
    (h : slots_ok s) : slots_ok (delete_booking now s bid).1 := by
  unfold delete_booking
  cases get_booking s bid with
  | error e => exact h
  | ok b =>
    dsimp only
    by_cases hbs : b.status = "confirmed"
    · rw [if_pos hbs]
      rcases hus : update_available_slots now s b.class_id 1 with ⟨s1, r1⟩
      have hs1 : slots_ok s1 := by
        have hx := slots_ok_update_slots now s b.class_id 1 h
        rw [hus] at hx
        exact hx
      cases r1 with
      | error e => exact hs1
      | ok c1 => exact hs1
    · rw [if_neg hbs]
      exact h

/-- deleteClass preserves slots_ok (it only removes rows). -/
theorem slots_ok_delete_class (now : Int) (s : Store) (cid : Int)
    (h : slots_ok s) : slots_ok (delete_class now s cid).1 := by
  unfold delete_class
  rcases hgc : get_class now s cid with ⟨s1, r1⟩
  have hs1 : slots_ok s1 := by
    have hx := slots_ok_get_class now s cid h
    rw [hgc] at hx
    exact hx
  cases r1 with
  | error e => exact hs1
  | ok c =>
    intro x hx
    exact hs1 x (List.mem_of_mem_filter hx)

/-- createClass with a non-negative capacity preserves slots_ok: the new
class starts with available_slots = capacity. -/
theorem slots_ok_create_class (validTZ : String → Bool)
    (conv : Int → String → Int) (s : Store) (d : ClassData)
    (h : slots_ok s) (hcap : 0 ≤ d.capacity) :
    slots_ok (create_class validTZ conv s d).1 := by
  unfold create_class
  by_cases h1 : ¬ (validTZ d.timezone = true)
  · rw [if_pos h1]
    exact h
  · rw [if_neg h1]
    by_cases h2 : ¬ (d.class_type ∈ class_types)
    · rw [if_pos h2]
      exact h
    · rw [if_neg h2]
      by_cases h3 : ¬ (d.status ∈ class_statuses)
      · rw [if_pos h3]
        exact h
      · rw [if_neg h3]
        by_cases h4 : (s.classes.find? (fun c =>
            c.name == d.name && decide (c.start_time < conv d.end_time d.timezone)
              && decide (conv d.start_time d.timezone < c.end_time))).isSome = true
        · rw [if_pos h4]
          exact h
        · rw [if_neg h4]
          by_cases h5 : conv d.end_time d.timezone - conv d.start_time d.timezone < 1800
          · rw [if_pos h5]
            exact h
          · rw [if_neg h5]
            intro x hx
            rcases List.mem_append.mp hx with hx | hx
            · exact h x hx
            · rw [List.mem_singleton.mp hx]
              exact hcap

/-- listUpcoming does not change the store, so slots_ok is preserved. -/
theorem slots_ok_get_upcoming (conv : Int → String → Int) (now : Int)
    (s : Store) (ct : Option String) (h : slots_ok s) :
    slots_ok (get_upcoming_classes conv now s ct).1 := by
  unfold get_upcoming_classes
  dsimp only
  by_cases h1 : ct.getD "" ≠ "" ∧ ¬ (ct.getD "" ∈ class_types)
  · rw [if_pos h1]
    exact h
  · rw [if_neg h1]
    exact h

/-- C3 (amended): every public operation of the class-lifecycle and booking
services preserves the lower bound 0 ≤ available_slots for every class —
update_available_slots itself rejects any delta that would make a count
negative — but the upper bound available_slots ≤ capacity is not enforced:
the separate counterexample shows adjustSlots(+1) on a full class persists
available_slots = capacity + 1. -/
theorem c3_slots_lower_bound_preserved (now : Int) (s : Store) (h : slots_ok s) :
    (∀ cid change, slots_ok (update_available_slots now s cid change).1)
    ∧ slots_ok (update_classes_status now s)
    ∧ (∀ cid, slots_ok (get_class now s cid).1)
    ∧ (∀ flag d, slots_ok (create_booking flag now s d).1)
    ∧ (∀ allowed bid u, slots_ok (update_booking_status allowed now s bid u).1)
    ∧ (∀ bid, slots_ok (delete_booking now s bid).1)
    ∧ (∀ cid, slots_ok (delete_class now s cid).1)
    ∧ (∀ validTZ conv d, 0 ≤ ClassData.capacity d →
        slots_ok (create_class validTZ conv s d).1)
    ∧ (∀ conv ct, slots_ok (get_upcoming_classes conv now s ct).1) :=
  ⟨fun cid change => slots_ok_update_slots now s cid change h,
   slots_ok_sweep now s h,
   fun cid => slots_ok_get_class now s cid h,
   fun flag d => slots_ok_create_booking flag now s d h,
   fun allowed bid u => slots_ok_update_booking allowed now s bid u h,
   fun bid => slots_ok_delete_booking now s bid h,
   fun cid => slots_ok_delete_class now s cid h,
   fun validTZ conv d hcap => slots_ok_create_class validTZ conv s d h hcap,
   fun conv ct => slots_ok_get_upcoming conv now s ct h⟩

/-- C3 witness: the preservation bundle at the concrete open store. -/
theorem c3_witness :
    (∀ cid change, slots_ok (update_available_slots 0 exStoreOpen cid change).1)
    ∧ slots_ok (update_classes_status 0 exStoreOpen)
    ∧ (∀ cid, slots_ok (get_class 0 exStoreOpen cid).1)
    ∧ (∀ flag d, slots_ok (create_booking flag 0 exStoreOpen d).1)
    ∧ (∀ allowed bid u, slots_ok (update_booking_status allowed 0 exStoreOpen bid u).1)
    ∧ (∀ bid, slots_ok (delete_booking 0 exStoreOpen bid).1)
    ∧ (∀ cid, slots_ok (delete_class 0 exStoreOpen cid).1)
    ∧ (∀ validTZ conv d, 0 ≤ ClassData.capacity d →
        slots_ok (create_class validTZ conv exStoreOpen d).1)
    ∧ (∀ conv ct, slots_ok (get_upcoming_classes conv 0 exStoreOpen ct).1) :=
  c3_slots_lower_bound_preserved 0 exStoreOpen (by
    intro c hc
    have hx : c = exClassOpen := List.mem_singleton.mp hc
    rw [hx]
    decide)
